import Mathlib

/-!
# Verification of the CSNews scraper core

A shallow embedding of the cookie jar (cookie-jar.js), the rate limiter and
content pipeline (scraper.js), the browser-session registry (browser-session.js
together with the registry methods of scraper.js), and the weighted profile
selection, with theorems settling the specification claims about them.

Machine timestamps are modelled as integers (milliseconds since the epoch);
quantities the JavaScript source computes with fractional arithmetic
(cache age in hours, random jitter) are modelled with rationals.
-/

set_option linter.unusedVariables false

namespace CSNews

/-! ## Cookie jar (cookie-jar.js)

The jar state `this.cookies` is a JavaScript object mapping a domain string to
an array of cookies; we model it as an association list with the object
first-occurrence lookup semantics and in-place update semantics.  (The auxiliary
`this.domains` set is bookkeeping for `getDomains` only and is not modelled;
no claim mentions it.) -/

/-- A cookie as produced by CookieJar.parseCookie: name, value, domain, path,
optional expiry timestamp, httpOnly and secure flags.  The sameSite attribute
is never consulted by any lookup and is omitted. -/
structure Cookie where
  name : String
  value : String
  domain : String
  path : String
  expires : Option Int
  httpOnly : Bool
  secure : Bool
deriving DecidableEq, Repr

/-- Object property read `m[key]` with a fallback of the empty bucket:
returns the value at the first occurrence of `key`. -/
def getDomainBucket : List (String × List Cookie) → String → List Cookie
  | [], _ => []
  | (d, b) :: rest, key => if d = key then b else getDomainBucket rest key

/-- Object property write `m[key] = b`: replaces the first occurrence of
`key`, or appends the binding when `key` is absent. -/
def setDomainBucket : List (String × List Cookie) → String → List Cookie →
    List (String × List Cookie)
  | [], key, b => [(key, b)]
  | (d, cur) :: rest, key, b =>
    if d = key then (key, b) :: rest else (d, cur) :: setDomainBucket rest key b

/-- The cookie jar: the `this.cookies` object of cookie-jar.js. -/
structure CookieJar where
  cookies : List (String × List Cookie)
deriving DecidableEq, Repr

/-- The constructor `new CookieJar()`: an empty store. -/
def CookieJar.empty : CookieJar := ⟨[]⟩

/-- The bucket update of CookieJar.setCookie lines 108-117: findIndex of the
entry with the same name and path, replace it in place when found, otherwise
push the new cookie at the end.  (Recursive rendering of findIndex-then-set:
the first matching entry is replaced, all others kept in order.) -/
def upsertBucket : List Cookie → Cookie → List Cookie
  | [], c => [c]
  | k :: rest, c =>
    if k.name == c.name && k.path == c.path then c :: rest
    else k :: upsertBucket rest c

/-- CookieJar.setCookie (cookie-jar.js lines 100-118): look up the bucket for
`cookie.domain` (creating it empty when absent), replace the existing entry
with the same name and path in place, otherwise push the cookie at the end. -/
def setCookie (jar : CookieJar) (c : Cookie) : CookieJar :=
  ⟨setDomainBucket jar.cookies c.domain
    (upsertBucket (getDomainBucket jar.cookies c.domain) c)⟩

/-- A sequence of insertions through `setCookie`, starting from the fresh jar
built by the constructor.  `addFromHeaders` reduces to exactly such a
sequence (one `setCookie` per parsed Set-Cookie header). -/
def insertAll (cs : List Cookie) : CookieJar :=
  cs.foldl setCookie CookieJar.empty

/-- Whether a cookie carries the store key (domain, name, path). -/
def keyMatches (d n p : String) (c : Cookie) : Bool :=
  c.domain == d && c.name == n && c.path == p

/-- The entries the store holds under key (domain `d`, name `n`, path `p`):
the members of bucket `d` whose name and path match. -/
def entriesFor (jar : CookieJar) (d n p : String) : List Cookie :=
  (getDomainBucket jar.cookies d).filter (fun c => c.name == n && c.path == p)

/-- JavaScript s.startsWith(p) at the character level: whether the second
character list begins with the first. -/
def charStartsWith : List Char → List Char → Bool
  | [], _ => true
  | _ :: _, [] => false
  | p :: ps, s :: ss => p == s && charStartsWith ps ss

/-- The keep-condition applied by CookieJar.getMatchingCookies (lines
161-171): skip expired cookies, skip secure cookies on insecure connections,
and require the request path to start with the cookie path
(`path.startsWith(cookie.path)`). -/
def matchFilter (path : String) (secure : Bool) (now : Int) (c : Cookie) : Bool :=
  (match c.expires with
   | some e => !decide (e < now)
   | none => true) &&
  !(c.secure && !secure) &&
  charStartsWith c.path.data path.data

/-- JavaScript `s.split('.')` at the character-list level: splitting is on
every occurrence of the separator, empty segments included. -/
def splitOnChar (sep : Char) : List Char → List (List Char)
  | [] => [[]]
  | ch :: rest =>
    let r := splitOnChar sep rest
    if ch = sep then [] :: r
    else
      match r with
      | [] => [[ch]]
      | h :: t => (ch :: h) :: t

/-- `domain.split('.')` of getMatchingCookies line 150. -/
def domainParts (domain : String) : List String :=
  (splitOnChar '.' domain.data).map (fun l => String.mk l)

/-- The cookie domains scanned by the loop of getMatchingCookies lines
152-157: for every i with 0 ≤ i < parts.length - 1, the suffix
parts[i..] joined with dots, in bare and leading-dot form. -/
def candidateDomains (domain : String) : List String :=
  let parts := domainParts domain
  (List.range (parts.length - 1)).flatMap (fun i =>
    let testDomain := String.intercalate "." (parts.drop i)
    [testDomain, "." ++ testDomain])

/-- CookieJar.getMatchingCookies (lines 145-177): collect, over every
candidate domain in scan order, the bucket members passing `matchFilter`. -/
def getMatchingCookies (jar : CookieJar) (domain path : String) (secure : Bool)
    (now : Int) : List Cookie :=
  (candidateDomains domain).flatMap (fun cd =>
    (getDomainBucket jar.cookies cd).filter (matchFilter path secure now))

/-- CookieJar.getCookieString (lines 125-136), with the URL already parsed
into hostname, pathname and protocol security. -/
def getCookieString (jar : CookieJar) (domain path : String) (secure : Bool)
    (now : Int) : String :=
  String.intercalate "; "
    ((getMatchingCookies jar domain path secure now).map
      (fun c => c.name ++ "=" ++ c.value))

/-- The keep-condition of CookieJar.cleanExpiredCookies line 187:
`!cookie.expires || cookie.expires >= now`. -/
def sweepKeep (now : Int) (c : Cookie) : Bool :=
  match c.expires with
  | none => true
  | some e => decide (now ≤ e)

/-- CookieJar.cleanExpiredCookies (lines 182-196): filter every bucket by
`sweepKeep`, then delete the domain entries whose bucket became empty. -/
def cleanExpiredCookies (jar : CookieJar) (now : Int) : CookieJar :=
  ⟨(jar.cookies.map (fun p => (p.1, p.2.filter (sweepKeep now)))).filter
    (fun p => !p.2.isEmpty)⟩

/-- The invariant maintained by the store: every key (domain, name, path)
owns at most one entry, and a bucket only holds cookies whose domain field
names that bucket. -/
def JarWF (jar : CookieJar) : Prop :=
  (∀ d n p, (entriesFor jar d n p).length ≤ 1) ∧
  (∀ d c, c ∈ getDomainBucket jar.cookies d → c.domain = d)

/-! ## Cache and news pipeline (scraper.js)

The TTL cache files are modelled as parsed contents (`Option CacheEntry`,
`none` standing for an absent file or a JSON parse failure, both of which
the source treats as no data).  `JSON.stringify` equality of payloads is
modelled as structural equality: the article records serialize field by
field, so the two coincide on this payload type. -/

/-- A news article record.  `kind` renders the JS property `type`
(standard/featured); `fromCache` renders the presence of the
`fromCache: true` property added on the cache read path (absent ≡ false). -/
structure Article where
  title : String
  url : String
  time : String
  kind : String
  image : Option String := none
  fromCache : Bool := false
deriving DecidableEq, Repr

/-- A cache file body: `{timestamp, data}` as written by saveToCache. -/
structure CacheEntry where
  timestamp : Int
  data : List Article
deriving DecidableEq, Repr

/-- scraper.js loadFromCache (lines 123-145): return the stored payload
unless the file is absent/unreadable or its age in hours exceeds the TTL. -/
def loadFromCache (ttlHours : ℚ) (file : Option CacheEntry) (now : Int) :
    Option (List Article) :=
  match file with
  | none => none
  | some cacheData =>
    let cacheAge : ℚ := ((now : ℚ) - (cacheData.timestamp : ℚ)) / (1000 * 60 * 60)
    if cacheAge > ttlHours then none else some cacheData.data

/-- scraper.js saveToCache (lines 89-116): write `{timestamp := now, data}`
unless the file already holds a payload with the same serialization, in
which case nothing is written at all. -/
def saveToCache (file : Option CacheEntry) (data : List Article) (now : Int) :
    Option CacheEntry :=
  match file with
  | none => some ⟨now, data⟩
  | some existingData =>
    if existingData.data = data then file else some ⟨now, data⟩

/-- The outcome of the four acquisition strategies of getLatestNews, given
as inputs to the model: `none` a thrown error, `some arts` the parsed
records of a completed attempt (possibly zero of them). -/
structure NewsFetchEnv where
  direct : Option (List Article)
  rss : Option (List Article)
  sitemap : Option (List Article)
  thirdParty : Option (List Article)

/-- Result of one getLatestNews call: the returned articles, the resulting
news-cache file content and the number of HTTP requests issued. -/
structure NewsResult where
  articles : List Article
  cache : Option CacheEntry
  networkCalls : Nat
deriving DecidableEq, Repr

/-- The static fallback content of getLatestNews lines 708-721; the `time`
fields carry the current locale time string, passed in as a parameter. -/
def staticFallback (t : String) : List Article :=
  [{ title := "Unable to fetch latest CS news - HLTV.org access restricted",
     url := "https://www.hltv.org/news", time := t, kind := "standard" },
   { title := "Visit HLTV.org directly for the latest Counter-Strike news",
     url := "https://www.hltv.org/", time := t, kind := "standard" }]

/-- scraper.js getLatestNews (lines 610-722): consult the cache (tagging a
hit with fromCache: true), else run the cascade direct scrape → RSS →
sitemap → third party, stopping at the first strategy yielding at least one
record and saving it, else return the static fallback without touching the
cache.  Each attempted direct/RSS/sitemap strategy issues one HTTP request;
the third-party strategy fabricates simulated data without a request. -/
def getLatestNews (ttlHours : ℚ) (cache : Option CacheEntry)
    (env : NewsFetchEnv) (now : Int) (fallbackTime : String) : NewsResult :=
  match loadFromCache ttlHours cache now with
  | some cachedNews =>
    { articles := cachedNews.map (fun a => { a with fromCache := true }),
      cache := cache,
      networkCalls := 0 }
  | none =>
    let step4 : Nat → NewsResult := fun calls =>
      match env.thirdParty with
      | some arts =>
        if 0 < arts.length then
          { articles := arts, cache := saveToCache cache arts now,
            networkCalls := calls }
        else
          { articles := staticFallback fallbackTime, cache := cache,
            networkCalls := calls }
      | none =>
        { articles := staticFallback fallbackTime, cache := cache,
          networkCalls := calls }
    let step3 : Nat → NewsResult := fun calls =>
      match env.sitemap with
      | some arts =>
        if 0 < arts.length then
          { articles := arts, cache := saveToCache cache arts now,
            networkCalls := calls + 1 }
        else step4 (calls + 1)
      | none => step4 (calls + 1)
    let step2 : Nat → NewsResult := fun calls =>
      match env.rss with
      | some arts =>
        if 0 < arts.length then
          { articles := arts, cache := saveToCache cache arts now,
            networkCalls := calls + 1 }
        else step3 (calls + 1)
      | none => step3 (calls + 1)
    match env.direct with
    | some arts =>
      if 0 < arts.length then
        { articles := arts, cache := saveToCache cache arts now,
          networkCalls := 1 }
      else step2 1
    | none => step2 1

/-! ## Rate limiter (scraper.js enforceRateLimit, lines 375-423)

Timestamps and durations are rationals (JavaScript computes the jitter with
fractional arithmetic).  The per-call `Date.now()` reading, random jitter
draw and scheduling slack are inputs; the limiter state is threaded through
a run explicitly. -/

/-- The configured cap: this.maxRequestsPerInterval and
this.requestIntervalMs (defaults 4 and 60000, overridable by config). -/
structure RLConfig where
  maxRequestsPerInterval : Nat
  requestIntervalMs : ℚ
deriving DecidableEq, Repr

/-- Limiter state: this.requestsPerInterval and this.lastResetTime. -/
structure RLState where
  requestsPerInterval : Nat
  lastResetTime : ℚ
deriving DecidableEq, Repr

/-- The inputs of one call: `now` is Date.now() at entry; `jitter` is
Math.random() * 1000 - 500, so -500 ≤ jitter < 500; `slack` ≥ 0 is the
extra real time a suspension takes beyond the requested duration
(setTimeout never wakes early). -/
structure RLInput where
  now : ℚ
  jitter : ℚ
  slack : ℚ
deriving DecidableEq, Repr

/-- What one enforceRateLimit call did: its arrival time, its epoch (the
value of lastResetTime right after the top-of-call reset check, i.e. the
interval start the call was admitted against), whether the limiter
suspended the caller, and the requested suspension duration. -/
structure RLEvent where
  now : ℚ
  epoch : ℚ
  waited : Bool
  waitMs : ℚ
deriving DecidableEq, Repr

/-- scraper.js enforceRateLimit (lines 375-423): reset the counter when the
interval has elapsed; when the counter has reached the max and time remains
to the interval boundary, suspend for that remainder plus jitter, then
reset the counter and stamp lastResetTime with the post-wait Date.now()
(`now + waitMs + slack`); finally increment the counter.  The
per-request-type shaping delay of lines 397-420 only sleeps and touches no
limiter state; it is absorbed into the arrival time of the next call. -/
def enforceRateLimit (cfg : RLConfig) (s : RLState) (inp : RLInput) :
    RLEvent × RLState :=
  let s1 : RLState :=
    if inp.now - s.lastResetTime > cfg.requestIntervalMs then
      { requestsPerInterval := 0, lastResetTime := inp.now }
    else s
  if s1.requestsPerInterval ≥ cfg.maxRequestsPerInterval then
    let timeToWait := cfg.requestIntervalMs - (inp.now - s1.lastResetTime)
    if timeToWait > 0 then
      let randomizedWait := timeToWait + inp.jitter
      (⟨inp.now, s1.lastResetTime, true, randomizedWait⟩,
       { requestsPerInterval := 0 + 1,
         lastResetTime := inp.now + randomizedWait + inp.slack })
    else
      (⟨inp.now, s1.lastResetTime, false, 0⟩,
       { requestsPerInterval := s1.requestsPerInterval + 1,
         lastResetTime := s1.lastResetTime })
  else
    (⟨inp.now, s1.lastResetTime, false, 0⟩,
     { requestsPerInterval := s1.requestsPerInterval + 1,
       lastResetTime := s1.lastResetTime })

/-- A run of the limiter over a list of successive calls. -/
def runRateLimiter (cfg : RLConfig) (s : RLState) : List RLInput → List RLEvent
  | [] => []
  | inp :: rest =>
    let step := enforceRateLimit cfg s inp
    step.1 :: runRateLimiter cfg step.2 rest

/-- The number of calls of a run that were admitted without a limiter wait
against epoch `t`, strictly inside the interval of that epoch. -/
def epochNoWaitCount (cfg : RLConfig) (evs : List RLEvent) (t : ℚ) : Nat :=
  (evs.filter (fun e => !e.waited && decide (e.epoch = t) &&
    decide (e.now - t < cfg.requestIntervalMs))).length

/-- Proof scaffolding: how many no-wait admissions epoch `t` can still
receive, seen from state `s`.  Dead epochs (strictly before the current
lastResetTime) receive none; the live epoch receives what remains of the
cap; epochs not yet started receive at most the cap. -/
def epochBudget (cfg : RLConfig) (s : RLState) (t : ℚ) : Nat :=
  if t < s.lastResetTime then 0
  else if t = s.lastResetTime then
    cfg.maxRequestsPerInterval - min s.requestsPerInterval cfg.maxRequestsPerInterval
  else cfg.maxRequestsPerInterval

/-- The concrete run refuting the sliding-window reading of the rate-limit
claim: interval 60000 ms, cap 4, fresh limiter started at time 0; four
calls just before the first interval boundary and four just after it. -/
def rlDemoInputs : List RLInput :=
  [⟨59996, 0, 0⟩, ⟨59997, 0, 0⟩, ⟨59998, 0, 0⟩, ⟨59999, 0, 0⟩,
   ⟨60001, 0, 0⟩, ⟨60002, 0, 0⟩, ⟨60003, 0, 0⟩, ⟨60004, 0, 0⟩]

/-! ## Weighted browser-profile selection
(scraper.js getRandomBrowserProfile lines 298-316, browser-session.js
getRandomProfile lines 530-544 — both run the identical algorithm over the
same catalog) -/

/-- A browser profile as far as selection is concerned: the catalog payload
(stood in for by the user-agent string) and the optional numeric selection
weight. -/
structure BrowserProfile where
  userAgent : String
  weight : Option ℚ
deriving DecidableEq, Repr

/-- JavaScript `profile.weight || 1`: 1 when the weight is absent or zero
(both falsy). -/
def profileWeight (p : BrowserProfile) : ℚ :=
  match p.weight with
  | none => 1
  | some w => if w = 0 then 1 else w

/-- `totalWeight` of getRandomBrowserProfile line 300. -/
def totalWeight (profiles : List BrowserProfile) : ℚ :=
  (profiles.map profileWeight).sum

/-- Weight accumulated over the first `n` profiles (the running
`weightSum` of the loop after `n` iterations). -/
def cumWeight (profiles : List BrowserProfile) (n : Nat) : ℚ :=
  ((profiles.take n).map profileWeight).sum

/-- The loop of getRandomBrowserProfile lines 306-312, returning the index
of the first profile whose cumulative weight reaches the draw `r`
(`randomValue <= weightSum`), or the list length when the loop falls
through. -/
def selectIdxLoop : List BrowserProfile → ℚ → ℚ → Nat
  | [], _, _ => 0
  | p :: ps, r, acc =>
    if r ≤ acc + profileWeight p then 0
    else selectIdxLoop ps r (acc + profileWeight p) + 1

/-- HLTVScraper.getRandomBrowserProfile (scraper.js lines 298-316): the
weighted cumulative selection, with the line 315 fallback
`return this.browserProfiles[0]` when the loop falls through.  The uniform
draw `randomValue = Math.random() * totalWeight` is the parameter `r`. -/
def getRandomBrowserProfile (ps : List BrowserProfile) (r : ℚ) :
    Option BrowserProfile :=
  match ps[selectIdxLoop ps r 0]? with
  | some p => some p
  | none => ps.head?

/-! ## Browser sessions and rotation
(browser-session.js constructor and shouldRotateSession; scraper.js
getSession, createNewSession, cleanupOldSessions)

The registry `this.sessions` is a JavaScript object keyed by session id;
like the cookie buckets it is modelled as an association list with
first-occurrence lookup, in-place update and single-key delete. -/

/-- One entry of behavioralPatterns.sessionBehaviors, reduced to the bounds
shouldRotateSession consults (the maxima of pageViews and
sessionDuration). -/
structure SessionBehavior where
  pageViewsMax : Nat
  sessionDurationMax : Int
deriving DecidableEq, Repr

/-- The rotation-relevant fields of a BrowserSession
(browser-session.js constructor lines 442-508). -/
structure Session where
  sessionId : String
  sessionBehavior : SessionBehavior
  visitCount : Nat
  sessionStart : Int
  lastVisitTime : Int
deriving DecidableEq, Repr

/-- The outcomes of the random draws one `new BrowserSession(...)`
construction consumes: the identifier Math.random().toString(36)
.substring(2, 15) and the weighted session-behavior draw (the same
weighted-selection algorithm verified for profile choice; its outcome is
what matters here). -/
structure SessionOracle where
  idDraw : String
  behaviorDraw : SessionBehavior
deriving DecidableEq, Repr

/-- `new BrowserSession(options)`, rotation-relevant fields: zero visits,
both timestamps the construction time, identifier and behavior from the
random draws of the constructor. -/
def mkSession (orc : SessionOracle) (now : Int) : Session :=
  { sessionId := orc.idDraw
    sessionBehavior := orc.behaviorDraw
    visitCount := 0
    sessionStart := now
    lastVisitTime := now }

/-- BrowserSession.shouldRotateSession (lines 662-678): true when the visit
count reached the max page views of the behavior, or the session duration
reached its max, or on the 5% random draw
(Math.random() < 0.05). -/
def shouldRotateSession (s : Session) (now : Int) (rand : ℚ) : Bool :=
  if s.visitCount ≥ s.sessionBehavior.pageViewsMax then true
  else if now - s.sessionStart ≥ s.sessionBehavior.sessionDurationMax then true
  else decide (rand < 5 / 100)

/-- Object property read `m[key]`. -/
def lookupAssoc {α : Type} : List (String × α) → String → Option α
  | [], _ => none
  | (k, v) :: rest, key => if k = key then some v else lookupAssoc rest key

/-- Object property write `m[key] = v`. -/
def setAssoc {α : Type} : List (String × α) → String → α → List (String × α)
  | [], key, v => [(key, v)]
  | (k, cur) :: rest, key, v =>
    if k = key then (key, v) :: rest else (k, cur) :: setAssoc rest key v

/-- JavaScript `delete m[key]`. -/
def removeAssoc {α : Type} : List (String × α) → String → List (String × α)
  | [], _ => []
  | (k, v) :: rest, key =>
    if k = key then rest else (k, v) :: removeAssoc rest key

/-- The scraper state consulted by getSession/createNewSession
(scraper.js constructor lines 39-45). -/
structure Registry where
  sessions : List (String × Session)
  activeSessions : Int
  maxSessions : Int
  sessionTtl : ℚ
  useSessionRotation : Bool
deriving DecidableEq, Repr

/-- Ascending insertion by last-visit time, modelling the comparator sort
of cleanupOldSessions lines 264-266. -/
def insertByTime (x : String × Int) : List (String × Int) → List (String × Int)
  | [] => [x]
  | y :: rest => if x.2 ≤ y.2 then x :: y :: rest else y :: insertByTime x rest

def sortByTime : List (String × Int) → List (String × Int)
  | [] => []
  | x :: rest => insertByTime x (sortByTime rest)

/-- Phase 1 of cleanupOldSessions (lines 269-278): while the
active-session counter exceeds maxSessions, shift the oldest entry and
delete it — unless it is the default session, in which case the loop
breaks. -/
def evictLoop (reg : Registry) : List String → Registry
  | [] => reg
  | id :: rest =>
    if reg.activeSessions > reg.maxSessions then
      if id ≠ "default" then
        evictLoop
          { reg with
            sessions := removeAssoc reg.sessions id
            activeSessions := reg.activeSessions - 1 } rest
      else reg
    else reg

/-- Phase 2 of cleanupOldSessions (lines 281-291): delete every
non-default session whose age in minutes exceeds sessionTtl.  The source
iterates the ids captured before phase 1 and reads
this.sessions[id].sessionStart; on an id phase 1 already deleted that read
throws in JS — the model skips such ids, a path no theorem relies on. -/
def ttlSweep (reg : Registry) (now : Int) : List String → Registry
  | [] => reg
  | id :: rest =>
    if id = "default" then ttlSweep reg now rest
    else
      match lookupAssoc reg.sessions id with
      | none => ttlSweep reg now rest
      | some s =>
        if ((now - s.sessionStart : ℚ)) / (1000 * 60) > reg.sessionTtl then
          ttlSweep
            { reg with
              sessions := removeAssoc reg.sessions id
              activeSessions := reg.activeSessions - 1 } now rest
        else ttlSweep reg now rest

/-- scraper.js cleanupOldSessions (lines 259-292). -/
def cleanupOldSessions (reg : Registry) (now : Int) : Registry :=
  let ids := reg.sessions.map (fun p => p.1)
  let sorted := sortByTime (reg.sessions.map (fun p => (p.1, p.2.lastVisitTime)))
  let reg1 := evictLoop reg (sorted.map (fun p => p.1))
  ttlSweep reg1 now ids

/-- scraper.js createNewSession (lines 214-232), with the id the caller
passed (every getSession call site provides one; the auto-generated
`session_` fallback id is not consulted by any claim): store a freshly
constructed session under the id, bump the active-session counter, and run
the cleanup when over capacity.  Returns the id and the new state. -/
def createNewSession (reg : Registry) (id : String) (orc : SessionOracle)
    (now : Int) : String × Registry :=
  let reg1 : Registry := { reg with
    sessions := setAssoc reg.sessions id (mkSession orc now),
    activeSessions := reg.activeSessions + 1 }
  let reg2 := if reg1.activeSessions > reg1.maxSessions then
    cleanupOldSessions reg1 now else reg1
  (id, reg2)

/-- scraper.js getSession (lines 240-254): create when absent or forced,
rotate (delete then recreate under the same registry id) when rotation is
enabled and shouldRotateSession fires, else return the stored session.
The returned session is the post-create lookup `this.sessions[id]`, an
Option because the over-capacity cleanup can evict it again. -/
def getSession (reg : Registry) (sessionId : String) (forceCreate : Bool)
    (rotRand : ℚ) (orc : SessionOracle) (now : Int) :
    Option Session × Registry :=
  match lookupAssoc reg.sessions sessionId with
  | none =>
    let r := createNewSession reg sessionId orc now
    (lookupAssoc r.2.sessions r.1, r.2)
  | some s =>
    if forceCreate then
      let r := createNewSession reg sessionId orc now
      (lookupAssoc r.2.sessions r.1, r.2)
    else if reg.useSessionRotation && shouldRotateSession s now rotRand then
      let reg1 : Registry :=
        { reg with sessions := removeAssoc reg.sessions sessionId }
      let r := createNewSession reg1 sessionId orc now
      (lookupAssoc r.2.sessions r.1, r.2)
    else (some s, reg)

/-! ## Concrete instances for the witnesses -/

/-- Concrete demonstration cookie for the witnesses. -/
def demoCookieA : Cookie :=
  ⟨"sid", "1", "example.com", "/", none, false, false⟩

def demoCookieB : Cookie :=
  ⟨"sid", "2", "example.com", "/", none, false, false⟩

def demoCookieDot : Cookie :=
  ⟨"sid", "1", ".example.com", "/", none, false, false⟩

def demoJarDot : CookieJar := ⟨[(".example.com", [demoCookieDot])]⟩

def demoProfiles : List BrowserProfile := [⟨"ua1", some 3⟩, ⟨"ua2", none⟩]

def demoOldSession : Session := ⟨"oldid", ⟨3, 600000⟩, 3, 0, 0⟩

def demoRegistry : Registry := ⟨[("default", demoOldSession)], 1, 5, 30, true⟩

def demoOracle : SessionOracle := ⟨"newid", ⟨3, 600000⟩⟩

/-! ## Theorems -/

theorem getDomainBucket_setDomainBucket_self (m : List (String × List Cookie))
    (key : String) (b : List Cookie) :
    getDomainBucket (setDomainBucket m key b) key = b := by
  induction m with
  | nil => simp [setDomainBucket, getDomainBucket]
  | cons p rest ih =>
    obtain ⟨d, cur⟩ := p
    by_cases h : d = key
    · simp [setDomainBucket, getDomainBucket, h]
    · simp [setDomainBucket, getDomainBucket, h, ih]

theorem getDomainBucket_setDomainBucket_other (m : List (String × List Cookie))
    (key key' : String) (b : List Cookie) (h : key ≠ key') :
    getDomainBucket (setDomainBucket m key b) key' = getDomainBucket m key' := by
  induction m with
  | nil => simp [setDomainBucket, getDomainBucket, h]
  | cons p rest ih =>
    obtain ⟨d, cur⟩ := p
    by_cases hd : d = key
    · subst hd
      simp [setDomainBucket, getDomainBucket, h]
    · simp [setDomainBucket, getDomainBucket, hd, ih]

theorem upsertBucket_filter_self (b : List Cookie) (c : Cookie)
    (hb : (b.filter (fun k => k.name == c.name && k.path == c.path)).length ≤ 1) :
    (upsertBucket b c).filter (fun k => k.name == c.name && k.path == c.path) = [c] := by
  induction b with
  | nil => simp [upsertBucket]
  | cons k rest ih =>
    by_cases h : (k.name == c.name && k.path == c.path) = true
    · rw [List.filter_cons, if_pos h, List.length_cons] at hb
      have hlen : (rest.filter (fun k => k.name == c.name && k.path == c.path)).length = 0 := by
        omega
      have hrest : rest.filter (fun k => k.name == c.name && k.path == c.path) = [] :=
        List.length_eq_zero.mp hlen
      simp [upsertBucket, h, List.filter_cons, hrest]
    · rw [List.filter_cons, if_neg h] at hb
      simp [upsertBucket, h, List.filter_cons, ih hb]

theorem upsertBucket_filter_other (b : List Cookie) (c : Cookie) (n p : String)
    (h : ¬(c.name == n && c.path == p) = true) :
    (upsertBucket b c).filter (fun k => k.name == n && k.path == p) =
      b.filter (fun k => k.name == n && k.path == p) := by
  induction b with
  | nil => simp [upsertBucket, h]
  | cons k rest ih =>
    by_cases hk : (k.name == c.name && k.path == c.path) = true
    · have hk2 : k.name = c.name ∧ k.path = c.path := by simpa using hk
      have hkn : ¬(k.name == n && k.path == p) = true := by
        rw [hk2.1, hk2.2]; exact h
      simp [upsertBucket, hk, List.filter_cons, h, hkn]
    · simp [upsertBucket, hk, List.filter_cons, ih]

theorem mem_upsertBucket (b : List Cookie) (c x : Cookie)
    (hx : x ∈ upsertBucket b c) : x ∈ b ∨ x = c := by
  induction b with
  | nil =>
    simp [upsertBucket] at hx
    exact Or.inr hx
  | cons k rest ih =>
    by_cases hk : (k.name == c.name && k.path == c.path) = true
    · simp [upsertBucket, hk] at hx
      rcases hx with hx | hx
      · exact Or.inr hx
      · exact Or.inl (by simp [hx])
    · simp [upsertBucket, hk] at hx
      rcases hx with hx | hx
      · exact Or.inl (by simp [hx])
      · rcases ih hx with h1 | h1
        · exact Or.inl (by simp [h1])
        · exact Or.inr h1

theorem JarWF_empty : JarWF CookieJar.empty := by
  constructor
  · intro d n p
    simp [entriesFor, CookieJar.empty, getDomainBucket]
  · intro d c hc
    simp [CookieJar.empty, getDomainBucket] at hc

theorem entriesFor_setCookie (jar : CookieJar) (c : Cookie) (d n p : String)
    (hwf : JarWF jar) :
    entriesFor (setCookie jar c) d n p =
      if keyMatches d n p c then [c] else entriesFor jar d n p := by
  unfold entriesFor setCookie
  by_cases hd : c.domain = d
  · subst hd
    rw [getDomainBucket_setDomainBucket_self]
    by_cases hnp : c.name = n ∧ c.path = p
    · obtain ⟨h1, h2⟩ := hnp
      subst h1; subst h2
      rw [upsertBucket_filter_self _ _ (hwf.1 c.domain c.name c.path)]
      simp [keyMatches]
    · have hb : ¬(c.name == n && c.path == p) = true := by
        simpa using fun h1 h2 => hnp ⟨h1, h2⟩
      rw [upsertBucket_filter_other _ _ _ _ hb]
      have hkey : keyMatches c.domain n p c = false := by
        simp only [keyMatches]
        simpa using fun h1 h2 => hnp ⟨h1, h2⟩
      simp [hkey]
  · rw [getDomainBucket_setDomainBucket_other _ _ _ _ hd]
    have hkey : keyMatches d n p c = false := by
      simp [keyMatches, hd]
    simp [hkey]

theorem JarWF_setCookie (jar : CookieJar) (c : Cookie) (hwf : JarWF jar) :
    JarWF (setCookie jar c) := by
  constructor
  · intro d n p
    rw [entriesFor_setCookie jar c d n p hwf]
    by_cases hc : keyMatches d n p c = true
    · simp [hc]
    · simp only [hc]
      simpa using hwf.1 d n p
  · intro d x hx
    unfold setCookie at hx
    by_cases hd : c.domain = d
    · subst hd
      rw [getDomainBucket_setDomainBucket_self] at hx
      rcases mem_upsertBucket _ _ _ hx with h1 | h1
      · exact hwf.2 c.domain x h1
      · rw [h1]
    · rw [getDomainBucket_setDomainBucket_other _ _ _ _ hd] at hx
      exact hwf.2 d x hx

theorem insertAll_go (cs : List Cookie) : ∀ jar : CookieJar, JarWF jar →
    JarWF (cs.foldl setCookie jar) ∧
    ∀ d n p, entriesFor (cs.foldl setCookie jar) d n p =
      ((cs.filter (keyMatches d n p)).getLast?).elim (entriesFor jar d n p)
        (fun x => [x]) := by
  induction cs with
  | nil =>
    intro jar hwf
    exact ⟨hwf, fun d n p => by simp⟩
  | cons c rest ih =>
    intro jar hwf
    have hwf' := JarWF_setCookie jar c hwf
    obtain ⟨h1, h2⟩ := ih (setCookie jar c) hwf'
    refine ⟨h1, ?_⟩
    intro d n p
    have hstep := entriesFor_setCookie jar c d n p hwf
    have hrec := h2 d n p
    rw [List.foldl_cons]
    rw [hrec, hstep, List.filter_cons]
    by_cases hc : keyMatches d n p c = true
    · rw [if_pos hc, if_pos hc]
      have hgen : ∀ m : List Cookie,
          (m.getLast?).elim [c] (fun x => [x]) =
            ((c :: m).getLast?).elim (entriesFor jar d n p) (fun x => [x]) := by
        intro m
        cases m with
        | nil => simp
        | cons y l =>
          rw [List.getLast?_cons_cons]
          have hne : (y :: l).getLast? ≠ none := by
            simp [List.getLast?_eq_none_iff]
          rcases Option.ne_none_iff_exists'.mp hne with ⟨x, hx⟩
          rw [hx]
          simp
      exact hgen _
    · rw [if_neg hc, if_neg hc]

/-- C3: for every sequence of cookie insertions and every key triple
(domain, name, path), the store holds at most one entry with that key, its
value is the most recent insertion with that key (last-write-wins, entries
with a different key unaffected: the right-hand side only depends on the
insertions carrying the key), and every bucket only holds cookies whose
domain field names it. -/
theorem cookieStore_lastWriteWins (cs : List Cookie) (d n p : String) :
    entriesFor (insertAll cs) d n p =
      ((cs.filter (keyMatches d n p)).getLast?).toList ∧
    (entriesFor (insertAll cs) d n p).length ≤ 1 ∧
    (∀ d' x, x ∈ getDomainBucket (insertAll cs).cookies d' → x.domain = d') := by
  obtain ⟨hwf, hspec⟩ := insertAll_go cs CookieJar.empty JarWF_empty
  have hbase : entriesFor CookieJar.empty d n p = [] := by
    simp [entriesFor, CookieJar.empty, getDomainBucket]
  have hmain : entriesFor (insertAll cs) d n p =
      ((cs.filter (keyMatches d n p)).getLast?).toList := by
    rw [insertAll, hspec d n p, hbase]
    cases (cs.filter (keyMatches d n p)).getLast? <;> simp
  refine ⟨hmain, ?_, hwf.2⟩
  rw [hmain]
  cases (cs.filter (keyMatches d n p)).getLast? <;> simp

theorem expired_not_matched (jar : CookieJar) (domain path : String)
    (secure : Bool) (now : Int) (c : Cookie) (e : Int)
    (hexp : c.expires = some e) (hlt : e < now) :
    c ∉ getMatchingCookies jar domain path secure now := by
  intro hmem
  rw [getMatchingCookies, List.mem_flatMap] at hmem
  obtain ⟨cd, _, hc⟩ := hmem
  rw [List.mem_filter] at hc
  have := hc.2
  rw [matchFilter, hexp] at this
  simp [hlt] at this

theorem cleanExpiredCookies_removes (jar : CookieJar) (now : Int) (d : String)
    (b : List Cookie) (hmem : (d, b) ∈ (cleanExpiredCookies jar now).cookies) :
    b ≠ [] ∧ ∀ c ∈ b, ∀ e, c.expires = some e → now ≤ e := by
  rw [cleanExpiredCookies] at hmem
  simp only [List.mem_filter, List.mem_map] at hmem
  obtain ⟨⟨⟨d0, b0⟩, hm0, heq⟩, hne⟩ := hmem
  cases heq
  constructor
  · intro hnil
    rw [hnil] at hne
    simp at hne
  · intro c hc e he
    have := (List.mem_filter.mp hc).2
    rw [sweepKeep, he] at this
    simpa using this

theorem cleanExpiredCookies_keeps (jar : CookieJar) (now : Int) (d : String)
    (b : List Cookie) (hmem : (d, b) ∈ jar.cookies) (c : Cookie) (hc : c ∈ b)
    (hnone : c.expires = none) :
    ∃ b2, (d, b2) ∈ (cleanExpiredCookies jar now).cookies ∧ c ∈ b2 := by
  refine ⟨b.filter (sweepKeep now), ?_, ?_⟩
  · rw [cleanExpiredCookies]
    rw [List.mem_filter]
    constructor
    · rw [List.mem_map]
      exact ⟨(d, b), hmem, rfl⟩
    · have hcmem : c ∈ b.filter (sweepKeep now) :=
        List.mem_filter.mpr ⟨hc, by simp [sweepKeep, hnone]⟩
      simpa using List.ne_nil_of_mem hcmem
  · exact List.mem_filter.mpr ⟨hc, by simp [sweepKeep, hnone]⟩

/-- C4: a cookie whose expiry is strictly in the past is never returned by
the cookie lookup, and cleanExpiredCookies removes it from the store
together with any domain bucket that becomes empty, while cookies with no
expiry set are never removed by the sweep. -/
theorem cookie_expiry_enforced (jar : CookieJar) (now : Int) :
    (∀ domain path secure c e, c.expires = some e → e < now →
      c ∉ getMatchingCookies jar domain path secure now) ∧
    (∀ d b, (d, b) ∈ (cleanExpiredCookies jar now).cookies →
      b ≠ [] ∧ ∀ c ∈ b, ∀ e, c.expires = some e → now ≤ e) ∧
    (∀ d b, (d, b) ∈ jar.cookies → ∀ c ∈ b, c.expires = none →
      ∃ b2, (d, b2) ∈ (cleanExpiredCookies jar now).cookies ∧ c ∈ b2) :=
  ⟨fun domain path secure c e he hlt =>
      expired_not_matched jar domain path secure now c e he hlt,
   fun d b hmem => cleanExpiredCookies_removes jar now d b hmem,
   fun d b hmem c hc hnone => cleanExpiredCookies_keeps jar now d b hmem c hc hnone⟩

theorem matched_domain_is_candidate (jar : CookieJar) (domain path : String)
    (secure : Bool) (now : Int)
    (hWF : ∀ d x, x ∈ getDomainBucket jar.cookies d → x.domain = d)
    (x : Cookie) (hx : x ∈ getMatchingCookies jar domain path secure now) :
    x.domain ∈ candidateDomains domain := by
  rw [getMatchingCookies, List.mem_flatMap] at hx
  obtain ⟨cd, hcd, hxf⟩ := hx
  have hdom := hWF cd x (List.mem_filter.mp hxf).1
  rw [hdom]
  exact hcd

/-- C5: an unexpired, security-compatible, path-matching cookie stored under
domain .example.com is returned by lookups for sub.example.com and for
example.com; a cookie stored under other.com is never returned for
example.com; and the domain of a matched cookie is always among the scanned
candidate domains (the hostname suffixes, bare or with a leading dot). -/
theorem domain_matching (jar : CookieJar) (c : Cookie) (path : String)
    (secure : Bool) (now : Int)
    (hWF : ∀ d x, x ∈ getDomainBucket jar.cookies d → x.domain = d)
    (hmem : c ∈ getDomainBucket jar.cookies ".example.com")
    (hexp : ∀ e, c.expires = some e → now ≤ e)
    (hsec : c.secure = true → secure = true)
    (hpath : charStartsWith c.path.data path.data = true) :
    c ∈ getMatchingCookies jar "sub.example.com" path secure now ∧
    c ∈ getMatchingCookies jar "example.com" path secure now ∧
    (∀ x, x.domain = "other.com" →
      x ∉ getMatchingCookies jar "example.com" path secure now) ∧
    (∀ domain x, x ∈ getMatchingCookies jar domain path secure now →
      x.domain ∈ candidateDomains domain) := by
  have hf : matchFilter path secure now c = true := by
    rw [matchFilter]
    have h1 : (match c.expires with
        | some e => !decide (e < now)
        | none => true) = true := by
      rcases hE : c.expires with _ | e
      · rfl
      · have := hexp e hE
        simp
        omega
    have h2 : (!(c.secure && !secure)) = true := by
      rcases hS : c.secure with _ | _
      · rfl
      · rw [hsec hS]
        rfl
    rw [h1, h2, hpath]
    rfl
  have hfilter : c ∈ (getDomainBucket jar.cookies ".example.com").filter
      (matchFilter path secure now) := List.mem_filter.mpr ⟨hmem, hf⟩
  have hsub : (".example.com" : String) ∈ candidateDomains "sub.example.com" := by
    decide
  have hbare : (".example.com" : String) ∈ candidateDomains "example.com" := by
    decide
  have hsound := fun domain x hx =>
    matched_domain_is_candidate jar domain path secure now hWF x hx
  refine ⟨?_, ?_, ?_, hsound⟩
  · exact List.mem_flatMap.mpr ⟨".example.com", hsub, hfilter⟩
  · exact List.mem_flatMap.mpr ⟨".example.com", hbare, hfilter⟩
  · intro x hdom hx
    have h4 := hsound "example.com" x hx
    rw [hdom] at h4
    have hno : ("other.com" : String) ∉ candidateDomains "example.com" := by
      decide
    exact hno h4

theorem splitOnChar_eq_single (sep : Char) (l : List Char) (h : sep ∉ l) :
    splitOnChar sep l = [l] := by
  induction l with
  | nil => rfl
  | cons ch rest ih =>
    have hch : ¬ ch = sep := fun he => h (by simp [he])
    have hrest : sep ∉ rest := fun hm => h (List.mem_cons_of_mem _ hm)
    simp [splitOnChar, hch, ih hrest]

/-- C10: for a hostname containing no dot (a single-label host such as
localhost) the matching loop iterates zero times, so getMatchingCookies is
empty and getCookieString is the empty string, whatever the jar holds —
including cookies stored under that exact hostname. -/
theorem singleLabel_no_cookies (jar : CookieJar) (domain path : String)
    (secure : Bool) (now : Int) (h : '.' ∉ domain.data) :
    getMatchingCookies jar domain path secure now = [] ∧
    getCookieString jar domain path secure now = "" := by
  have hcand : candidateDomains domain = [] := by
    simp [candidateDomains, domainParts, splitOnChar_eq_single _ _ h]
  have hmatch : getMatchingCookies jar domain path secure now = [] := by
    rw [getMatchingCookies, hcand]
    rfl
  refine ⟨hmatch, ?_⟩
  rw [getCookieString, hmatch]
  rfl

/-- C2: while the news cache holds an entry younger than the TTL, two
successive getLatestNews calls both deliver the cached payload tagged
fromCache (hence identical results) and neither issues a network request;
the cache file is left untouched in between. -/
theorem news_cache_idempotent (ttlHours : ℚ) (e : CacheEntry)
    (env env2 : NewsFetchEnv) (now1 now2 : Int) (t1 t2 : String)
    (h1 : ¬ ((now1 : ℚ) - (e.timestamp : ℚ)) / (1000 * 60 * 60) > ttlHours)
    (h2 : ¬ ((now2 : ℚ) - (e.timestamp : ℚ)) / (1000 * 60 * 60) > ttlHours) :
    (getLatestNews ttlHours (some e) env now1 t1).articles =
      (getLatestNews ttlHours
        ((getLatestNews ttlHours (some e) env now1 t1).cache) env2 now2 t2).articles ∧
    (getLatestNews ttlHours (some e) env now1 t1).networkCalls = 0 ∧
    (getLatestNews ttlHours (some e) env now1 t1).cache = some e ∧
    (getLatestNews ttlHours
      ((getLatestNews ttlHours (some e) env now1 t1).cache) env2 now2 t2).networkCalls
      = 0 := by
  have hload1 : loadFromCache ttlHours (some e) now1 = some e.data := by
    simp [loadFromCache, h1]
  have hload2 : loadFromCache ttlHours (some e) now2 = some e.data := by
    simp [loadFromCache, h2]
  have hr1 : getLatestNews ttlHours (some e) env now1 t1 =
      { articles := e.data.map (fun a => { a with fromCache := true }),
        cache := some e, networkCalls := 0 } := by
    rw [getLatestNews, hload1]
  rw [hr1]
  have hr2 : getLatestNews ttlHours (some e) env2 now2 t2 =
      { articles := e.data.map (fun a => { a with fromCache := true }),
        cache := some e, networkCalls := 0 } := by
    rw [getLatestNews, hload2]
  rw [hr2]
  exact ⟨rfl, rfl, rfl, rfl⟩

/-- C8: on a cache miss with all four strategies failing (throwing or
producing zero records), getLatestNews resolves to the fixed two-entry
static placeholder and performs no cache write. -/
theorem news_all_fail_placeholder (ttlHours : ℚ) (cache : Option CacheEntry)
    (env : NewsFetchEnv) (now : Int) (t : String)
    (hmiss : loadFromCache ttlHours cache now = none)
    (hdir : env.direct = none ∨ env.direct = some [])
    (hrss : env.rss = none ∨ env.rss = some [])
    (hsm : env.sitemap = none ∨ env.sitemap = some [])
    (htp : env.thirdParty = none ∨ env.thirdParty = some []) :
    (getLatestNews ttlHours cache env now t).articles = staticFallback t ∧
    (getLatestNews ttlHours cache env now t).cache = cache := by
  rcases hdir with hd | hd <;> rcases hrss with hr | hr <;>
    rcases hsm with hs | hs <;> rcases htp with ht | ht <;>
    rw [getLatestNews, hmiss] <;> simp [hd, hr, hs, ht]

/-- C9: saving a payload structurally equal to the stored one leaves the
cache file entirely unchanged, timestamp included; hence a cache entry
already older than the TTL is never made fresh again by such a save, and
every later loadFromCache on it returns null. -/
theorem saveToCache_no_refresh (ttlHours : ℚ) (e : CacheEntry)
    (data : List Article) (now : Int) (heq : e.data = data) :
    saveToCache (some e) data now = some e ∧
    (∀ now2 : Int,
      ((now : ℚ) - (e.timestamp : ℚ)) / (1000 * 60 * 60) > ttlHours →
      now ≤ now2 →
      loadFromCache ttlHours (saveToCache (some e) data now) now2 = none) := by
  have hsave : saveToCache (some e) data now = some e := by
    simp [saveToCache, heq]
  refine ⟨hsave, ?_⟩
  intro now2 hstale hle
  rw [hsave]
  have hmono : ((now : ℚ) - (e.timestamp : ℚ)) / (1000 * 60 * 60) ≤
      ((now2 : ℚ) - (e.timestamp : ℚ)) / (1000 * 60 * 60) := by
    have hc : ((now : ℚ)) ≤ ((now2 : ℚ)) := by exact_mod_cast hle
    have hs : ((now : ℚ) - (e.timestamp : ℚ)) ≤ ((now2 : ℚ) - (e.timestamp : ℚ)) :=
      sub_le_sub_right hc _
    have hpos : (0 : ℚ) ≤ 1000 * 60 * 60 := by norm_num
    exact div_le_div_of_nonneg_right hs hpos
  have : ((now2 : ℚ) - (e.timestamp : ℚ)) / (1000 * 60 * 60) > ttlHours :=
    lt_of_lt_of_le hstale hmono
  simp [loadFromCache, this]

theorem epochNoWaitCount_cons (cfg : RLConfig) (e : RLEvent)
    (evs : List RLEvent) (t : ℚ) :
    epochNoWaitCount cfg (e :: evs) t =
      (if (!e.waited && decide (e.epoch = t) &&
          decide (e.now - t < cfg.requestIntervalMs)) = true
       then 1 else 0) + epochNoWaitCount cfg evs t := by
  rw [epochNoWaitCount, epochNoWaitCount, List.filter_cons]
  split <;> simp [Nat.add_comm]

theorem enforceRateLimit_topReset (cfg : RLConfig) (s : RLState) (inp : RLInput)
    (htop : inp.now - s.lastResetTime > cfg.requestIntervalMs)
    (hM : 0 < cfg.maxRequestsPerInterval) :
    enforceRateLimit cfg s inp =
      (⟨inp.now, inp.now, false, 0⟩, ⟨1, inp.now⟩) := by
  have hM2 : ¬ ((0 : Nat) ≥ cfg.maxRequestsPerInterval) := by omega
  simp [enforceRateLimit, htop, hM2]

theorem enforceRateLimit_inc (cfg : RLConfig) (s : RLState) (inp : RLInput)
    (htop : ¬ inp.now - s.lastResetTime > cfg.requestIntervalMs)
    (hcnt : ¬ s.requestsPerInterval ≥ cfg.maxRequestsPerInterval) :
    enforceRateLimit cfg s inp =
      (⟨inp.now, s.lastResetTime, false, 0⟩,
       ⟨s.requestsPerInterval + 1, s.lastResetTime⟩) := by
  simp [enforceRateLimit, htop, hcnt]

theorem enforceRateLimit_wait (cfg : RLConfig) (s : RLState) (inp : RLInput)
    (htop : ¬ inp.now - s.lastResetTime > cfg.requestIntervalMs)
    (hcnt : s.requestsPerInterval ≥ cfg.maxRequestsPerInterval)
    (hin : inp.now - s.lastResetTime < cfg.requestIntervalMs) :
    enforceRateLimit cfg s inp =
      (⟨inp.now, s.lastResetTime, true,
        cfg.requestIntervalMs - (inp.now - s.lastResetTime) + inp.jitter⟩,
       ⟨1, inp.now + (cfg.requestIntervalMs - (inp.now - s.lastResetTime)
          + inp.jitter) + inp.slack⟩) := by
  have htw : cfg.requestIntervalMs - (inp.now - s.lastResetTime) > 0 := by linarith
  simp [enforceRateLimit, htop, hcnt, htw]

theorem enforceRateLimit_boundary (cfg : RLConfig) (s : RLState) (inp : RLInput)
    (htop : ¬ inp.now - s.lastResetTime > cfg.requestIntervalMs)
    (hcnt : s.requestsPerInterval ≥ cfg.maxRequestsPerInterval)
    (hbd : ¬ inp.now - s.lastResetTime < cfg.requestIntervalMs) :
    enforceRateLimit cfg s inp =
      (⟨inp.now, s.lastResetTime, false, 0⟩,
       ⟨s.requestsPerInterval + 1, s.lastResetTime⟩) := by
  have htw : ¬ (cfg.requestIntervalMs - (inp.now - s.lastResetTime) > 0) := by linarith
  simp [enforceRateLimit, htop, hcnt, htw]

theorem epochBudget_le_max (cfg : RLConfig) (s : RLState) (t : ℚ) :
    epochBudget cfg s t ≤ cfg.maxRequestsPerInterval := by
  rw [epochBudget]
  split_ifs <;> omega

theorem epochBudget_lt (cfg : RLConfig) (s : RLState) (t : ℚ)
    (h : t < s.lastResetTime) : epochBudget cfg s t = 0 := by
  simp [epochBudget, h]

theorem epochBudget_eq (cfg : RLConfig) (s : RLState) (t : ℚ)
    (h : t = s.lastResetTime) :
    epochBudget cfg s t =
      cfg.maxRequestsPerInterval -
        min s.requestsPerInterval cfg.maxRequestsPerInterval := by
  have h1 : ¬ t < s.lastResetTime := by
    rw [h]
    exact lt_irrefl _
  simp [epochBudget, h1, h]

theorem epochBudget_gt (cfg : RLConfig) (s : RLState) (t : ℚ)
    (h : s.lastResetTime < t) :
    epochBudget cfg s t = cfg.maxRequestsPerInterval := by
  have h1 : ¬ t < s.lastResetTime := by linarith
  have h2 : ¬ t = s.lastResetTime := by
    intro he
    rw [he] at h
    exact lt_irrefl _ h
  simp [epochBudget, h1, h2]

theorem epochBudget_advance (cfg : RLConfig) (s s2 : RLState) (t : ℚ)
    (hL : s.lastResetTime < s2.lastResetTime) :
    epochBudget cfg s2 t ≤ epochBudget cfg s t := by
  rcases lt_trichotomy t s.lastResetTime with hc | hc | hc
  · rw [epochBudget_lt cfg s t hc, epochBudget_lt cfg s2 t (by linarith)]
  · rw [epochBudget_lt cfg s2 t (by rw [hc]; exact hL)]
    exact Nat.zero_le _
  · rw [epochBudget_gt cfg s t hc]
    exact epochBudget_le_max cfg s2 t

theorem epochBudget_incr (cfg : RLConfig) (s : RLState) (t : ℚ) :
    epochBudget cfg ⟨s.requestsPerInterval + 1, s.lastResetTime⟩ t ≤
      epochBudget cfg s t := by
  rcases lt_trichotomy t s.lastResetTime with hc | hc | hc
  · rw [epochBudget_lt cfg s t hc,
      epochBudget_lt cfg ⟨s.requestsPerInterval + 1, s.lastResetTime⟩ t hc]
  · rw [epochBudget_eq cfg s t hc,
      epochBudget_eq cfg ⟨s.requestsPerInterval + 1, s.lastResetTime⟩ t hc]
    simp only
    omega
  · rw [epochBudget_gt cfg s t hc,
      epochBudget_gt cfg ⟨s.requestsPerInterval + 1, s.lastResetTime⟩ t hc]

theorem runRateLimiter_epoch_bound (cfg : RLConfig)
    (hI : 500 < cfg.requestIntervalMs) (hM : 0 < cfg.maxRequestsPerInterval) :
    ∀ (inputs : List RLInput) (s : RLState) (t : ℚ),
    (∀ inp ∈ inputs, -500 ≤ inp.jitter) →
    (∀ inp ∈ inputs, 0 ≤ inp.slack) →
    epochNoWaitCount cfg (runRateLimiter cfg s inputs) t ≤ epochBudget cfg s t := by
  intro inputs
  induction inputs with
  | nil =>
    intro s t _ _
    simp [runRateLimiter, epochNoWaitCount]
  | cons inp rest ih =>
    intro s t hjit hslack
    have hjj : -500 ≤ inp.jitter := hjit inp (List.mem_cons_self _ _)
    have hss : 0 ≤ inp.slack := hslack inp (List.mem_cons_self _ _)
    have hjR : ∀ x ∈ rest, -500 ≤ x.jitter :=
      fun x hx => hjit x (List.mem_cons_of_mem _ hx)
    have hsR : ∀ x ∈ rest, 0 ≤ x.slack :=
      fun x hx => hslack x (List.mem_cons_of_mem _ hx)
    have hrun : runRateLimiter cfg s (inp :: rest) =
        (enforceRateLimit cfg s inp).1 ::
          runRateLimiter cfg (enforceRateLimit cfg s inp).2 rest := rfl
    rw [hrun, epochNoWaitCount_cons]
    by_cases htop : inp.now - s.lastResetTime > cfg.requestIntervalMs
    · -- interval elapsed: counter reset, the call admitted into a fresh epoch
      rw [enforceRateLimit_topReset cfg s inp htop hM]
      dsimp only
      have hnow_gt : s.lastResetTime < inp.now := by linarith
      have hrec := ih ⟨1, inp.now⟩ t hjR hsR
      by_cases ht : inp.now = t
      · subst ht
        rw [if_pos (by simp; linarith)]
        rw [epochBudget_eq cfg ⟨1, inp.now⟩ inp.now rfl] at hrec
        rw [epochBudget_gt cfg s inp.now hnow_gt]
        simp at hrec
        omega
      · rw [if_neg (by simp; intro h; exact absurd h ht)]
        have hmono : epochBudget cfg ⟨1, inp.now⟩ t ≤ epochBudget cfg s t :=
          epochBudget_advance cfg s ⟨1, inp.now⟩ t hnow_gt
        omega
    · by_cases hcnt : s.requestsPerInterval ≥ cfg.maxRequestsPerInterval
      · by_cases hin : inp.now - s.lastResetTime < cfg.requestIntervalMs
        · -- counter full strictly inside the interval: the caller is suspended
          rw [enforceRateLimit_wait cfg s inp htop hcnt hin]
          dsimp only
          rw [if_neg (by simp)]
          have hrec := ih ⟨1, inp.now + (cfg.requestIntervalMs -
            (inp.now - s.lastResetTime) + inp.jitter) + inp.slack⟩ t hjR hsR
          have hLgt : s.lastResetTime < inp.now + (cfg.requestIntervalMs -
              (inp.now - s.lastResetTime) + inp.jitter) + inp.slack := by
            linarith
          have hmono : epochBudget cfg ⟨1, inp.now + (cfg.requestIntervalMs -
              (inp.now - s.lastResetTime) + inp.jitter) + inp.slack⟩ t ≤
              epochBudget cfg s t :=
            epochBudget_advance cfg s _ t hLgt
          omega
        · -- the boundary instant: admitted without waiting, epoch not inside
          rw [enforceRateLimit_boundary cfg s inp htop hcnt hin]
          dsimp only
          rw [if_neg (by
            simp
            intro he
            rw [← he]
            linarith)]
          have hrec := ih ⟨s.requestsPerInterval + 1, s.lastResetTime⟩ t hjR hsR
          have hmono := epochBudget_incr cfg s t
          omega
      · -- counter below the max: admitted without waiting
        rw [enforceRateLimit_inc cfg s inp htop hcnt]
        dsimp only
        have hrec := ih ⟨s.requestsPerInterval + 1, s.lastResetTime⟩ t hjR hsR
        by_cases hc1 : s.lastResetTime = t ∧ inp.now - t < cfg.requestIntervalMs
        · rw [if_pos (by simp [hc1.1, hc1.2])]
          rw [epochBudget_eq cfg ⟨s.requestsPerInterval + 1, s.lastResetTime⟩ t
            hc1.1.symm] at hrec
          rw [epochBudget_eq cfg s t hc1.1.symm]
          simp at hrec ⊢
          omega
        · rw [if_neg (by
            simp
            intro he
            exact le_of_not_lt (fun hlt => hc1 ⟨he, hlt⟩))]
          have hmono := epochBudget_incr cfg s t
          omega

/-- C1 counterexample: with the default configuration (cap 4 per 60000 ms
interval) all eight calls of `rlDemoInputs` lie inside the one sliding
window [59996, 119996] of length 60000 and every one is admitted without
waiting — twice the configured max.  The counter implements a fixed-window
limiter (reset when the interval since lastResetTime has elapsed), not a
sliding-window one. -/
theorem rateLimit_slidingWindow_counterexample :
    ((runRateLimiter ⟨4, 60000⟩ ⟨0, 0⟩ rlDemoInputs).filter
        (fun e => !e.waited && decide ((59996 : ℚ) ≤ e.now) &&
          decide (e.now ≤ 59996 + 60000))).length = 8 ∧
    8 > (⟨4, 60000⟩ : RLConfig).maxRequestsPerInterval := by
  constructor
  · norm_num [rlDemoInputs, runRateLimiter, enforceRateLimit, List.filter_cons]
  · norm_num

/-- C1 (amended): within each interval between counter resets — each epoch
value of lastResetTime — at most maxRequestsPerInterval calls arriving
strictly before the interval boundary are admitted without waiting (a
sliding window can straddle two epochs and see up to twice the cap, as the
counterexample shows); and a call arriving strictly inside the interval
with the counter full is suspended for the remaining time to the interval
boundary plus the jitter draw — within (-500, +500) ms of the remainder —
after which the counter is reset (holding only the admitted call) and
lastResetTime is stamped with the post-wait clock.  The hypotheses record
what the source guarantees: jitter is Math.random()*1000 - 500, suspensions
never wake early, and the configured interval exceeds 500 ms while the cap
is at least 1 (the defaults are 60000 and 4, and a falsy config override
cannot zero either). -/
theorem rateLimit_interval_cap (cfg : RLConfig) (startTime : ℚ)
    (inputs : List RLInput)
    (hI : 500 < cfg.requestIntervalMs)
    (hM : 0 < cfg.maxRequestsPerInterval)
    (hjit : ∀ inp ∈ inputs, -500 ≤ inp.jitter)
    (hslack : ∀ inp ∈ inputs, 0 ≤ inp.slack) :
    (∀ t : ℚ, epochNoWaitCount cfg
        (runRateLimiter cfg ⟨0, startTime⟩ inputs) t ≤
        cfg.maxRequestsPerInterval) ∧
    (∀ (s : RLState) (inp : RLInput), -500 ≤ inp.jitter → inp.jitter < 500 →
      s.requestsPerInterval ≥ cfg.maxRequestsPerInterval →
      inp.now - s.lastResetTime < cfg.requestIntervalMs →
      (enforceRateLimit cfg s inp).1.waited = true ∧
      (enforceRateLimit cfg s inp).1.waitMs =
        cfg.requestIntervalMs - (inp.now - s.lastResetTime) + inp.jitter ∧
      cfg.requestIntervalMs - (inp.now - s.lastResetTime) - 500 ≤
        (enforceRateLimit cfg s inp).1.waitMs ∧
      (enforceRateLimit cfg s inp).1.waitMs <
        cfg.requestIntervalMs - (inp.now - s.lastResetTime) + 500 ∧
      (enforceRateLimit cfg s inp).2.requestsPerInterval = 1 ∧
      (enforceRateLimit cfg s inp).2.lastResetTime =
        inp.now + (enforceRateLimit cfg s inp).1.waitMs + inp.slack) := by
  constructor
  · intro t
    have h := runRateLimiter_epoch_bound cfg hI hM inputs ⟨0, startTime⟩ t
      hjit hslack
    exact le_trans h (epochBudget_le_max cfg _ t)
  · intro s inp hj1 hj2 hcnt hin
    have htop : ¬ inp.now - s.lastResetTime > cfg.requestIntervalMs := by linarith
    rw [enforceRateLimit_wait cfg s inp htop hcnt hin]
    refine ⟨rfl, rfl, ?_, ?_, rfl, rfl⟩
    · dsimp only
      linarith
    · dsimp only
      linarith

theorem cumWeight_cons (p : BrowserProfile) (ps : List BrowserProfile)
    (n : Nat) :
    cumWeight (p :: ps) (n + 1) = profileWeight p + cumWeight ps n := by
  simp [cumWeight]

theorem selectIdxLoop_spec :
    ∀ (ps : List BrowserProfile) (r acc : ℚ), ps ≠ [] →
    r ≤ acc + (ps.map profileWeight).sum →
    selectIdxLoop ps r acc < ps.length ∧
    r ≤ acc + cumWeight ps (selectIdxLoop ps r acc + 1) ∧
    ∀ j < selectIdxLoop ps r acc, acc + cumWeight ps (j + 1) < r := by
  intro ps
  induction ps with
  | nil => intro r acc hne _; exact absurd rfl hne
  | cons p ps ih =>
    intro r acc hne hr
    by_cases hle : r ≤ acc + profileWeight p
    · refine ⟨?_, ?_, ?_⟩
      · simp [selectIdxLoop, hle]
      · simp only [selectIdxLoop, hle, if_pos]
        simpa [cumWeight_cons, cumWeight] using hle
      · intro j hj
        rw [selectIdxLoop, if_pos hle] at hj
        omega
    · cases hps : ps with
      | nil =>
        exfalso
        subst hps
        simp at hr
        exact hle (by linarith)
      | cons q ps2 =>
        subst hps
        have hr2 : r ≤ (acc + profileWeight p) +
            ((q :: ps2).map profileWeight).sum := by
          simp at hr ⊢
          linarith
        obtain ⟨hlen, hub, hlb⟩ := ih r (acc + profileWeight p) (by simp) hr2
        have hsel : selectIdxLoop (p :: q :: ps2) r acc =
            selectIdxLoop (q :: ps2) r (acc + profileWeight p) + 1 := by
          rw [selectIdxLoop, if_neg hle]
        refine ⟨?_, ?_, ?_⟩
        · rw [hsel]
          simpa using hlen
        · rw [hsel, cumWeight_cons]
          linarith
        · intro j hj
          rw [hsel] at hj
          cases j with
          | zero =>
            rw [cumWeight_cons, cumWeight]
            simp
            linarith [lt_of_not_le hle]
          | succ j2 =>
            rw [cumWeight_cons]
            have := hlb j2 (by omega)
            linarith

theorem cumWeight_succ (ps : List BrowserProfile) (i : Nat) (h : i < ps.length) :
    cumWeight ps (i + 1) = cumWeight ps i + profileWeight (ps.get ⟨i, h⟩) := by
  rw [cumWeight, cumWeight, List.map_take, List.map_take,
    List.sum_take_succ _ i (by simpa using h)]
  simp [List.get_eq_getElem]

theorem cumWeight_step (ps : List BrowserProfile)
    (hw : ∀ p ∈ ps, 0 ≤ profileWeight p) (k : Nat) :
    cumWeight ps k ≤ cumWeight ps (k + 1) := by
  by_cases hk : k < ps.length
  · rw [cumWeight_succ ps k hk]
    have hmem := hw (ps.get ⟨k, hk⟩) (ps.get_mem k hk)
    linarith
  · have h1 : ps.length ≤ k := by omega
    rw [cumWeight, cumWeight, List.take_of_length_le h1,
      List.take_of_length_le (by omega)]

theorem cumWeight_mono (ps : List BrowserProfile)
    (hw : ∀ p ∈ ps, 0 ≤ profileWeight p) {m n : Nat} (hmn : m ≤ n) :
    cumWeight ps m ≤ cumWeight ps n := by
  induction hmn with
  | refl => exact le_refl _
  | step h2 ih => exact le_trans ih (cumWeight_step ps hw _)

theorem selectIdxLoop_eq_iff (ps : List BrowserProfile) (x : ℚ) (i : Nat)
    (hne : ps ≠ []) (hw : ∀ p ∈ ps, 0 < profileWeight p)
    (hx0 : 0 ≤ x) (hxlt : x < totalWeight ps) (hi : i < ps.length) :
    selectIdxLoop ps x 0 = i ↔
      (cumWeight ps i < x ∧ x ≤ cumWeight ps (i + 1)) ∨
      (i = 0 ∧ x ≤ cumWeight ps 1) := by
  have hwle : ∀ p ∈ ps, 0 ≤ profileWeight p := fun p hp => le_of_lt (hw p hp)
  have htot : x ≤ 0 + (ps.map profileWeight).sum := by
    rw [zero_add]
    exact le_of_lt hxlt
  obtain ⟨hlen, hub, hlb⟩ := selectIdxLoop_spec ps x 0 hne htot
  simp only [zero_add] at hub hlb
  constructor
  · intro he
    by_cases h0 : i = 0
    · subst h0
      rw [he] at hub
      exact Or.inr ⟨rfl, hub⟩
    · refine Or.inl ⟨?_, ?_⟩
      · have := hlb (i - 1) (by omega)
        have hrw : i - 1 + 1 = i := by omega
        rwa [hrw] at this
      · rw [← he]
        exact hub
  · rintro (⟨hlt, hle⟩ | ⟨h0, hle⟩)
    · by_contra hne2
      rcases Nat.lt_or_ge (selectIdxLoop ps x 0) i with hc | hc
      · have hmono : cumWeight ps (selectIdxLoop ps x 0 + 1) ≤ cumWeight ps i :=
          cumWeight_mono ps hwle (by omega)
        linarith
      · have hc2 : i < selectIdxLoop ps x 0 := by omega
        have := hlb i hc2
        linarith
    · subst h0
      by_contra hne2
      have := hlb 0 (by omega)
      have h1 : (0 : Nat) + 1 = 1 := rfl
      rw [h1] at this
      linarith

/-- C6: for a non-empty profile list and a draw r in [0, totalWeight), the
weighted selection returns the first profile whose cumulative weight is at
least r (exactly the `randomValue <= weightSum` exit of the source, the line 315
fallback never firing); and — the distribution consequence — with positive
effective weights the draws selecting index i are exactly the interval
(cumWeight i, cumWeight (i+1)] (the half-open [0, cumWeight 1] at i = 0),
whose length is the i-th effective weight, so the uniform draw
Math.random() * totalWeight selects each profile with probability
wᵢ / Σw. -/
theorem weighted_selection_spec (ps : List BrowserProfile) (r : ℚ)
    (hne : ps ≠ []) (hr0 : 0 ≤ r) (hrlt : r < totalWeight ps) :
    (∃ h : selectIdxLoop ps r 0 < ps.length,
      getRandomBrowserProfile ps r = some (ps.get ⟨selectIdxLoop ps r 0, h⟩) ∧
      r ≤ cumWeight ps (selectIdxLoop ps r 0 + 1) ∧
      ∀ j < selectIdxLoop ps r 0, cumWeight ps (j + 1) < r) ∧
    ((∀ p ∈ ps, 0 < profileWeight p) →
      ∀ i, ∀ h2 : i < ps.length,
        cumWeight ps (i + 1) - cumWeight ps i = profileWeight (ps.get ⟨i, h2⟩) ∧
        ∀ x : ℚ, 0 ≤ x → x < totalWeight ps →
          (selectIdxLoop ps x 0 = i ↔
            (cumWeight ps i < x ∧ x ≤ cumWeight ps (i + 1)) ∨
            (i = 0 ∧ x ≤ cumWeight ps 1))) := by
  have htot : r ≤ 0 + (ps.map profileWeight).sum := by
    rw [zero_add]
    exact le_of_lt hrlt
  obtain ⟨hlen, hub, hlb⟩ := selectIdxLoop_spec ps r 0 hne htot
  simp only [zero_add] at hub hlb
  constructor
  · refine ⟨hlen, ?_, hub, hlb⟩
    rw [getRandomBrowserProfile]
    rw [List.getElem?_eq_getElem hlen]
    simp [List.get_eq_getElem]
  · intro hw i h2
    refine ⟨?_, ?_⟩
    · rw [cumWeight_succ ps i h2]
      ring
    · intro x hx0 hxlt
      exact selectIdxLoop_eq_iff ps x i hne hw hx0 hxlt h2

theorem lookupAssoc_setAssoc_self {α : Type} (m : List (String × α))
    (key : String) (v : α) : lookupAssoc (setAssoc m key v) key = some v := by
  induction m with
  | nil => simp [setAssoc, lookupAssoc]
  | cons p rest ih =>
    obtain ⟨k, cur⟩ := p
    by_cases h : k = key
    · simp [setAssoc, lookupAssoc, h]
    · simp [setAssoc, lookupAssoc, h, ih]

/-- C7 counterexample: a session at its page-view bound is rotated, but the
identifier of the replacement — a fresh Math.random draw the source never checks
for distinctness — can repeat the old identifier, here verbatim: the
returned newly constructed session (visit count 0) carries the same
identifier as the session it replaced. -/
theorem session_rotation_id_counterexample :
    shouldRotateSession ⟨"abc123xyz", ⟨3, 600000⟩, 3, 0, 0⟩ 1000 (9 / 10) = true ∧
    ((getSession ⟨[("default", ⟨"abc123xyz", ⟨3, 600000⟩, 3, 0, 0⟩)], 1, 5, 30, true⟩
        "default" false (9 / 10) ⟨"abc123xyz", ⟨3, 600000⟩⟩ 1000).1.map
        Session.sessionId) = some "abc123xyz" ∧
    ((getSession ⟨[("default", ⟨"abc123xyz", ⟨3, 600000⟩, 3, 0, 0⟩)], 1, 5, 30, true⟩
        "default" false (9 / 10) ⟨"abc123xyz", ⟨3, 600000⟩⟩ 1000).1.map
        Session.visitCount) = some 0 := by
  refine ⟨rfl, rfl, rfl⟩

/-- C7 (amended): a session whose visit count has reached the
max page views of its behavior makes shouldRotateSession return true regardless of the
random draw; the next getSession call with rotation enabled (and the pool
within capacity, so the over-capacity cleanup does not fire) replaces the
stored session object with a newly constructed one — zero visits,
construction-time timestamps — and returns it; its identifier is the fresh
random draw, which differs from the old identifier whenever the draw does
(the source never enforces distinctness of the draw). -/
theorem session_rotation_replaces (reg : Registry) (sid : String) (s : Session)
    (orc : SessionOracle) (now : Int) (rotRand : ℚ)
    (hmem : lookupAssoc reg.sessions sid = some s)
    (hfull : s.visitCount ≥ s.sessionBehavior.pageViewsMax)
    (hrot : reg.useSessionRotation = true)
    (hcap : ¬ reg.activeSessions + 1 > reg.maxSessions) :
    (∀ rand : ℚ, shouldRotateSession s now rand = true) ∧
    (getSession reg sid false rotRand orc now).1 = some (mkSession orc now) ∧
    lookupAssoc (getSession reg sid false rotRand orc now).2.sessions sid =
      some (mkSession orc now) ∧
    (mkSession orc now).visitCount = 0 ∧
    (mkSession orc now).sessionStart = now ∧
    (mkSession orc now).sessionId = orc.idDraw ∧
    (orc.idDraw ≠ s.sessionId → (mkSession orc now).sessionId ≠ s.sessionId) := by
  have hsr : ∀ rand : ℚ, shouldRotateSession s now rand = true := by
    intro rand
    rw [shouldRotateSession, if_pos hfull]
  have hget : getSession reg sid false rotRand orc now =
      (some (mkSession orc now),
       { reg with
         sessions := setAssoc (removeAssoc reg.sessions sid) sid (mkSession orc now),
         activeSessions := reg.activeSessions + 1 }) := by
    rw [getSession, hmem]
    dsimp only
    rw [if_neg Bool.false_ne_true]
    rw [if_pos (show (reg.useSessionRotation &&
        shouldRotateSession s now rotRand) = true by
      rw [hrot, hsr rotRand]
      rfl)]
    dsimp only [createNewSession]
    rw [if_neg hcap]
    rw [lookupAssoc_setAssoc_self]
  rw [hget]
  exact ⟨hsr, rfl, lookupAssoc_setAssoc_self _ _ _, rfl, rfl, rfl, fun h => h⟩

theorem cookieStore_lastWriteWins_witness :
    entriesFor (insertAll [demoCookieA, demoCookieB]) "example.com" "sid" "/" =
      [demoCookieB] := by
  rw [(cookieStore_lastWriteWins [demoCookieA, demoCookieB]
    "example.com" "sid" "/").1]
  decide

theorem cookie_expiry_enforced_witness :
    ∃ b2, ("example.com", b2) ∈
        (cleanExpiredCookies ⟨[("example.com", [demoCookieA])]⟩ 0).cookies ∧
      demoCookieA ∈ b2 :=
  (cookie_expiry_enforced ⟨[("example.com", [demoCookieA])]⟩ 0).2.2
    "example.com" [demoCookieA] (by decide) demoCookieA (by decide) rfl

theorem domain_matching_witness :
    demoCookieDot ∈ getMatchingCookies demoJarDot "sub.example.com" "/" false 0 ∧
    demoCookieDot ∈ getMatchingCookies demoJarDot "example.com" "/" false 0 := by
  have hWF : ∀ d x, x ∈ getDomainBucket demoJarDot.cookies d → x.domain = d := by
    intro d x hx
    by_cases hd : (".example.com" : String) = d
    · subst hd
      simp [demoJarDot, getDomainBucket] at hx
      rw [hx]
      rfl
    · simp [demoJarDot, getDomainBucket, hd] at hx
  have h := domain_matching demoJarDot demoCookieDot "/" false 0 hWF
    (by decide) (fun e he => nomatch he) (fun h2 => nomatch h2) (by decide)
  exact ⟨h.1, h.2.1⟩

theorem singleLabel_no_cookies_witness :
    getCookieString ⟨[("localhost",
      [⟨"sid", "1", "localhost", "/", none, false, false⟩])]⟩
      "localhost" "/" false 0 = "" :=
  (singleLabel_no_cookies ⟨[("localhost",
    [⟨"sid", "1", "localhost", "/", none, false, false⟩])]⟩
    "localhost" "/" false 0 (by decide)).2

theorem news_cache_idempotent_witness :
    ¬ (((1000 : Int) : ℚ) - ((0 : Int) : ℚ)) / (1000 * 60 * 60) > (1 : ℚ) ∧
    (getLatestNews 1 (some ⟨0, []⟩) ⟨none, none, none, none⟩ 1000 "t1").articles =
      (getLatestNews 1
        ((getLatestNews 1 (some ⟨0, []⟩) ⟨none, none, none, none⟩ 1000 "t1").cache)
        ⟨none, none, none, none⟩ 2000 "t2").articles := by
  refine ⟨by norm_num, ?_⟩
  exact (news_cache_idempotent 1 ⟨0, []⟩ ⟨none, none, none, none⟩
    ⟨none, none, none, none⟩ 1000 2000 "t1" "t2" (by norm_num) (by norm_num)).1

theorem news_all_fail_placeholder_witness :
    (getLatestNews 1 none ⟨none, none, none, none⟩ 0 "tt").articles =
      staticFallback "tt" ∧
    (getLatestNews 1 none ⟨none, none, none, none⟩ 0 "tt").cache = none :=
  news_all_fail_placeholder 1 none ⟨none, none, none, none⟩ 0 "tt" rfl
    (Or.inl rfl) (Or.inl rfl) (Or.inl rfl) (Or.inl rfl)

theorem saveToCache_no_refresh_witness :
    saveToCache (some ⟨0, ([] : List Article)⟩) [] 4000000000 = some ⟨0, []⟩ ∧
    loadFromCache 1 (saveToCache (some ⟨0, ([] : List Article)⟩) [] 4000000000)
      4000000000 = none := by
  have h := saveToCache_no_refresh 1 ⟨0, []⟩ [] 4000000000 rfl
  exact ⟨h.1, h.2 4000000000 (by norm_num) (le_refl _)⟩

theorem rateLimit_interval_cap_witness :
    (500 : ℚ) < 60000 ∧ (0 : Nat) < 4 ∧
    epochNoWaitCount ⟨4, 60000⟩
      (runRateLimiter ⟨4, 60000⟩ ⟨0, 0⟩ rlDemoInputs) 60001 ≤ 4 :=
  ⟨by norm_num, by norm_num,
    (rateLimit_interval_cap ⟨4, 60000⟩ 0 rlDemoInputs (by norm_num) (by norm_num)
      (by
        intro x hx
        simp [rlDemoInputs] at hx
        rcases hx with h | h | h | h | h | h | h | h <;> rw [h] <;> norm_num)
      (by
        intro x hx
        simp [rlDemoInputs] at hx
        rcases hx with h | h | h | h | h | h | h | h <;> rw [h])).1 60001⟩

theorem weighted_selection_spec_witness :
    demoProfiles ≠ [] ∧ (0 : ℚ) ≤ 1 / 2 ∧
    (1 / 2 : ℚ) < totalWeight demoProfiles ∧
    (∃ h : selectIdxLoop demoProfiles (1 / 2) 0 < demoProfiles.length,
      getRandomBrowserProfile demoProfiles (1 / 2) =
        some (demoProfiles.get ⟨selectIdxLoop demoProfiles (1 / 2) 0, h⟩) ∧
      (1 / 2 : ℚ) ≤ cumWeight demoProfiles (selectIdxLoop demoProfiles (1 / 2) 0 + 1) ∧
      ∀ j < selectIdxLoop demoProfiles (1 / 2) 0,
        cumWeight demoProfiles (j + 1) < 1 / 2) := by
  have h1 : demoProfiles ≠ [] := by simp [demoProfiles]
  have h2 : (0 : ℚ) ≤ 1 / 2 := by norm_num
  have h3 : (1 / 2 : ℚ) < totalWeight demoProfiles := by
    norm_num [totalWeight, demoProfiles, profileWeight]
  exact ⟨h1, h2, h3, (weighted_selection_spec demoProfiles (1 / 2) h1 h2 h3).1⟩

theorem session_rotation_replaces_witness :
    (getSession demoRegistry "default" false (1 / 2) demoOracle 1000).1 =
      some (mkSession demoOracle 1000) ∧
    (mkSession demoOracle 1000).sessionId ≠ demoOldSession.sessionId := by
  have h := session_rotation_replaces demoRegistry "default" demoOldSession
    demoOracle 1000 (1 / 2) (by decide) (by decide) rfl (by decide)
  exact ⟨h.2.1, h.2.2.2.2.2.2 (by decide)⟩

end CSNews

